import Mathlib

/-!
Verification of the runbeam-cli token-verification pipeline and device-login
state machine, shallowly embedded from the Rust sources
(`src/jwt.rs`, `src/commands/auth.rs`, `src/storage.rs`).

Machine integers are modelled as `Nat`/`Int`; the unchecked `u64`
subtraction in `JwksCache::is_expired` is modelled as a checked subtraction
returning `Option` (Rust panics on debug-build underflow, so the operation
is partial on its mathematical domain).
-/

namespace Runbeam

/-! ## JWKS data model (`src/jwt.rs`) -/

/-- Individual JSON Web Key, from `struct JwkKey` in `src/jwt.rs`. -/
structure JwkKey where
  kty : String
  use_ : String
  kid : String
  alg : String
  n : String
  e : String
  deriving DecidableEq, Repr

/-- JWKS response structure, from `struct Jwks` in `src/jwt.rs`. -/
structure Jwks where
  keys : List JwkKey
  deriving DecidableEq, Repr

/-- JWKS cache structure, from `struct JwksCache` in `src/jwt.rs`
(`cached_at`, `ttl_seconds` are `u64`). -/
structure JwksCache where
  jwks : Jwks
  cached_at : Nat
  ttl_seconds : Nat
  deriving DecidableEq, Repr

/-- Checked `u64` subtraction: Rust `a - b` on `u64` is only defined when
`b ≤ a`; otherwise it underflows (debug-build panic). -/
def u64Sub (a b : Nat) : Option Nat :=
  if b ≤ a then some (a - b) else none

/-- `JwksCache::is_expired` from `src/jwt.rs`:
`(now - self.cached_at) > self.ttl_seconds`, with the unchecked `u64`
subtraction made explicit as `u64Sub`.  `none` models the underflow. -/
def JwksCache.is_expired (c : JwksCache) (now : Nat) : Option Bool :=
  (u64Sub now c.cached_at).map (fun d => decide (d > c.ttl_seconds))

/-! ## Polling attempt count (`src/commands/auth.rs`)

`expires_in_seconds` is an `f64` in `StartLoginResponse`; we model it as a
rational.  The code computes
`((start_data.expires_in_seconds as u64) / poll_interval.as_secs()) + 2`
with `poll_interval = 5 s`; the `as u64` cast truncates toward zero, which
for a non-negative value is the floor. -/

/-- Poll interval in seconds (fixed): `Duration::from_secs(5)`. -/
def pollIntervalSecs : Nat := 5

/-- `max_attempts` computation from `src/commands/auth.rs` line 132. -/
def maxAttempts (expires_in_seconds : ℚ) : Nat :=
  (⌊expires_in_seconds⌋.toNat) / pollIntervalSecs + 2

/-! ## Issuer normalization (`normalize_issuer`, `src/jwt.rs`)

The Rust code delegates URL parsing to the external `url` crate and keeps
only scheme, host and port.  We model the parse on `List Char` for the
`scheme://host[:port][/path…]` shapes the issuer origins take: scheme is
the (non-empty, alphabetic) run before the first `:`, which must be
followed by `//`; the authority runs to the first `/`, `?` or `#`; an
optional `:digits` suffix of the authority is the port.  Any other shape
fails to parse, and `normalize_issuer` then returns its input unchanged,
exactly as the `Err` branch of `url::Url::parse` does. -/

/-- Character may appear in the authority (stops at path/query/fragment). -/
def isAuthChar (c : Char) : Bool := !(c = '/' || c = '?' || c = '#')

/-- Parsed origin: scheme, host, optional port digits (kept as written). -/
structure Origin where
  scheme : List Char
  host : List Char
  port : Option (List Char)
  deriving DecidableEq, Repr

/-- Split the authority into host and optional port digits.  The suffix of
the authority from its first `:` (if any) must be `:` followed by at least
one digit, else the URL is rejected (the `url` crate rejects invalid
ports). -/
def splitPort (auth : List Char) : Option (List Char × Option (List Char)) :=
  let host := auth.takeWhile (fun c => c ≠ ':')
  let rest := auth.dropWhile (fun c => c ≠ ':')
  if rest = [] then some (host, none)
  else
    let ds := rest.tail
    if ds ≠ [] ∧ ds.all Char.isDigit then some (host, some ds) else none

/-- Model of `url::Url::parse` restricted to the origin components that
`normalize_issuer` reads (scheme, host, port): a non-empty alphabetic
scheme, the separator `://`, then the authority up to the first `/`, `?`
or `#`. -/
def parseUrl (l : List Char) : Option Origin :=
  let scheme := l.takeWhile (fun c => c ≠ ':')
  let rest := l.dropWhile (fun c => c ≠ ':')
  if scheme ≠ [] ∧ scheme.all Char.isAlpha ∧ rest.take 3 = [':', '/', '/'] then
    (splitPort ((rest.drop 3).takeWhile isAuthChar)).map
      (fun hp => ⟨scheme, hp.1, hp.2⟩)
  else none

/-- Render `scheme://host[:port]`, the `format!("{}://{}{}", …)` of
`normalize_issuer`. -/
def renderOrigin (o : Origin) : List Char :=
  o.scheme ++ (':' :: '/' :: '/' :: (o.host ++
    (match o.port with
     | none => []
     | some ds => ':' :: ds)))

/-- `normalize_issuer` from `src/jwt.rs`: keep scheme+host+port when the
input parses as a URL, otherwise return it as-is. -/
def normalize_issuer (l : List Char) : List Char :=
  match parseUrl l with
  | some o => renderOrigin o
  | none => l

/-- String-level wrapper matching the Rust signature. -/
def normalizeIssuerStr (s : String) : String :=
  ⟨normalize_issuer s.data⟩

/-- The well-formedness a successful `parseUrl` guarantees of its output. -/
def OriginWF (o : Origin) : Prop :=
  o.scheme ≠ [] ∧ o.scheme.all Char.isAlpha ∧
  o.host.all (fun c => c ≠ ':') ∧ o.host.all isAuthChar ∧
  ∀ ds, o.port = some ds → ds ≠ [] ∧ ds.all Char.isDigit

/-! ## JWT token validation (`validate_jwt_token`, `src/jwt.rs`)

The Rust function delegates header parsing, signature verification and
the `exp` claim check to the external `jsonwebtoken` crate.  A token is
modelled abstractly: an optional parsed header, optional deserializable
claims, and a signature-verification oracle per key (RSA itself is out of
scope).  `jsonwebtoken::decode` checks, in this order: the declared
algorithm against the allowed set, the signature, then — only after a
valid signature — the claims (`exp`, with `validate_exp = true`).  The
same ordering applies to the "insecure" payload read
(`insecure_disable_signature_validation` only turns off the algorithm and
signature checks, not claim validation, so an expired payload fails that
read).  `Validation::new` leaves the crate's default leeway of 60
seconds in place, so the effective expiry check is `exp < now − 60`. -/

/-- The default `leeway` of `jsonwebtoken`'s `Validation::new` (v8/v9):
60 seconds, never overridden by `src/jwt.rs`. -/
def leeway : Int := 60

structure UserInfo where
  id : String
  email : String
  name : String
  deriving DecidableEq, Repr

structure TeamInfo where
  id : String
  name : String
  deriving DecidableEq, Repr

/-- JWT claims structure, from `struct JwtClaims` in `src/jwt.rs`. -/
structure JwtClaims where
  iss : String
  sub : String
  aud : Option String
  exp : Int
  iat : Int
  kid : Option String
  user : Option UserInfo
  team : Option TeamInfo
  deriving DecidableEq, Repr

/-- The parts of the JWT header the validator reads (`decode_header`). -/
structure JwtHeader where
  alg : String
  kid : Option String
  deriving DecidableEq, Repr

/-- Abstract token: `header = none` models an undecodable header,
`payload = none` undeserializable claims, and `sigValid k` whether the
token's RS256 signature verifies under key `k`. -/
structure Token where
  header : Option JwtHeader
  payload : Option JwtClaims
  sigValid : JwkKey → Bool

/-- The typed failures of the validation pipeline (the Rust code reports
them as distinct `anyhow` error messages / `jsonwebtoken` error kinds). -/
inductive ValidationError where
  | parseError
  | keySetEmpty
  | keyNotFound (kid : String)
  | noRs256Key
  | unsupportedKeyType (kty : String)
  | unsupportedAlgorithm
  | signatureInvalid
  | expiredToken
  | issuerMismatch
  | missingSubject
  deriving DecidableEq, Repr

/-- `jsonwebtoken::decode` with `insecure_disable_signature_validation()`:
the header must decode, the claims must deserialize, and claim validation
(`validate_exp = true`) must pass; the signature is not checked. -/
def insecureDecode (t : Token) (now : Int) : Option JwtClaims :=
  match t.header, t.payload with
  | some _, some c => if c.exp < now - leeway then none else some c
  | _, _ => none

/-- Key-id resolution, `src/jwt.rs` lines 289–308: take the header `kid`
when present; otherwise recover a legacy `kid` from an unverified read of
the payload claims; `kid_from_payload` stays `None` when the header has a
`kid` or when the insecure read fails. -/
def resolveKid (t : Token) (now : Int) : Option String :=
  match t.header with
  | none => none
  | some header =>
    let kid_from_payload :=
      if header.kid.isNone then
        match insecureDecode t now with
        | some c => c.kid
        | none => none
      else none
    header.kid.or kid_from_payload

/-- Key selection, `src/jwt.rs` lines 322–334: exact `kid` match when a
key id was resolved, otherwise the first key whose `alg` is RS256. -/
def findKey (keys : List JwkKey) (kid : Option String) :
    Except ValidationError JwkKey :=
  match kid with
  | some kid_value =>
    match keys.find? (fun k => k.kid == kid_value) with
    | some k => .ok k
    | none => .error (.keyNotFound kid_value)
  | none =>
    match keys.find? (fun k => k.alg == "RS256") with
    | some k => .ok k
    | none => .error .noRs256Key

/-- `validate_jwt_token` from `src/jwt.rs`: decode the header, require a
non-empty key set, resolve the kid, select the key, check the key type
(`jwk_to_decoding_key`), then `decode` (declared algorithm, signature,
`exp`, in that order), then the manual issuer and subject checks; on
success the resolved kid is stored back into the returned claims. -/
def validate_jwt_token (t : Token) (api_url : String) (jwks : Jwks)
    (now : Int) : Except ValidationError JwtClaims :=
  match t.header with
  | none => .error .parseError
  | some header =>
    if jwks.keys.isEmpty then .error .keySetEmpty
    else
      match findKey jwks.keys (resolveKid t now) with
      | .error e => .error e
      | .ok jwk =>
        if jwk.kty ≠ "RSA" then .error (.unsupportedKeyType jwk.kty)
        else if header.alg ≠ "RS256" then .error .unsupportedAlgorithm
        else if ¬ t.sigValid jwk then .error .signatureInvalid
        else
          match t.payload with
          | none => .error .parseError
          | some c =>
            if c.exp < now - leeway then .error .expiredToken
            else
              let claims := { c with kid := header.kid.or c.kid }
              if normalizeIssuerStr claims.iss ≠ normalizeIssuerStr api_url then
                .error .issuerMismatch
              else if claims.sub.isEmpty then .error .missingSubject
              else .ok claims


/-! ## Login orchestrator (`login`, `src/commands/auth.rs`)

The `login` flow is modelled as a pure function of an environment that
fixes the collaborators' answers: the stored credential, the SDK token
validator (`runbeam_sdk::validate_jwt_token`, an external crate, modelled
as an oracle on the token string), the start-login response and the
per-attempt check-login responses (`none` = connection/HTTP/parse
failure).  It returns the terminal outcome together with the trace of
observable effects: the HTTP requests the orchestrator itself issues, the
credential write, the "logout first" notice and the post-save validation
warning. -/

/-- `struct StartLoginResponse` (`expires_in_seconds` is `f64`,
modelled as a rational). -/
structure StartLoginResponse where
  device_token : String
  verification_url : String
  expires_in_seconds : ℚ
  deriving DecidableEq, Repr

/-- `struct CheckLoginResponse` from `src/commands/auth.rs`. -/
structure CheckLoginResponse where
  status : String
  token : Option String
  expires_in : Option Int
  user : Option UserInfo
  message : Option String
  deriving DecidableEq, Repr

/-- `struct CliAuth` from `src/storage.rs`. -/
structure CliAuth where
  token : String
  expires_at : Option Int
  user : Option UserInfo
  deriving DecidableEq, Repr

/-- Observable effects of one `login` run. -/
inductive LoginEffect where
  | netStartLogin
  | netCheckLogin (attempt : Nat)
  | saveAuth (auth : CliAuth)
  | informLogoutRequired
  | warnTokenValidationFailed
  deriving DecidableEq, Repr

/-- Terminal outcomes of `login` (`Ok(())` split into the short-circuit
and the post-poll success; the `bail!` branches by their message). -/
inductive LoginOutcome where
  | alreadyAuthenticated
  | authenticated
  | expired
  | invalid
  | failed
  | timedOut
  deriving DecidableEq, Repr

/-- The collaborators' behaviour during one `login` invocation. -/
structure LoginEnv where
  storedAuth : Option CliAuth
  validateToken : String → Bool
  startResp : Option StartLoginResponse
  pollResp : Nat → Option CheckLoginResponse
  now : Int

/-- The polling loop of `login` (`for attempt in 1..=max_attempts`),
`src/commands/auth.rs` lines 134–250: each attempt calls the check-login
endpoint; a non-success HTTP status or unparsable body aborts with an
error; `"authenticated"` requires a token, computes
`expires_at = now + expires_in`, saves the credential, then runs the
confirmatory SDK validation whose failure only warns; `"pending"`
continues; `"expired"`/`"invalid"`/anything else abort; loop exhaustion
times out. -/
def pollLoop (env : LoginEnv) (remaining attempt : Nat)
    (acc : List LoginEffect) : LoginOutcome × List LoginEffect :=
  match remaining with
  | 0 => (.timedOut, acc)
  | remaining + 1 =>
    let acc := acc ++ [.netCheckLogin attempt]
    match env.pollResp attempt with
    | none => (.failed, acc)
    | some check_data =>
      if check_data.status = "authenticated" then
        match check_data.token with
        | none => (.failed, acc)
        | some token =>
          let expires_at := check_data.expires_in.map
            (fun seconds => env.now + seconds)
          let auth : CliAuth := ⟨token, expires_at, check_data.user⟩
          let acc := acc ++ [.saveAuth auth]
          if env.validateToken token then (.authenticated, acc)
          else (.authenticated, acc ++ [.warnTokenValidationFailed])
      else if check_data.status = "pending" then
        pollLoop env remaining (attempt + 1) acc
      else if check_data.status = "expired" then (.expired, acc)
      else if check_data.status = "invalid" then (.invalid, acc)
      else (.failed, acc)

/-- `login` after the already-logged-in check, `src/commands/auth.rs`
lines 65–250: the start-login POST (failure or non-success status aborts),
the `expires_in_seconds <= 0.0` guard, then the polling loop with
`max_attempts` attempts starting at attempt 1. -/
def loginStart (env : LoginEnv) : LoginOutcome × List LoginEffect :=
  match env.startResp with
  | none => (.failed, [.netStartLogin])
  | some start_data =>
    if start_data.expires_in_seconds ≤ 0 then (.failed, [.netStartLogin])
    else
      pollLoop env (maxAttempts start_data.expires_in_seconds) 1
        [.netStartLogin]

/-- `login` from `src/commands/auth.rs` lines 44–251: when a stored
credential exists and still validates, print the logout notice and return
success without touching the network; otherwise run the full flow. -/
def login (env : LoginEnv) : LoginOutcome × List LoginEffect :=
  match env.storedAuth with
  | some existing_auth =>
    if env.validateToken existing_auth.token then
      (.alreadyAuthenticated, [.informLogoutRequired])
    else loginStart env
  | none => loginStart env


/-! ### Idempotence of `normalize_issuer` -/

lemma isAlpha_ne_colon {c : Char} (h : c.isAlpha = true) : c ≠ ':' := by
  rintro rfl
  exact absurd h (by decide)

lemma isDigit_isAuthChar {c : Char} (h : c.isDigit = true) : isAuthChar c = true := by
  have h1 : c ≠ '/' := by rintro rfl; exact absurd h (by decide)
  have h2 : c ≠ '?' := by rintro rfl; exact absurd h (by decide)
  have h3 : c ≠ '#' := by rintro rfl; exact absurd h (by decide)
  simp [isAuthChar, h1, h2, h3]

lemma takeWhile_colon_cons (l : List Char) :
    List.takeWhile (fun c => decide (c ≠ ':')) (':' :: l) = [] :=
  List.takeWhile_cons_of_neg (by simp)

lemma dropWhile_colon_cons (l : List Char) :
    List.dropWhile (fun c => decide (c ≠ ':')) (':' :: l) = ':' :: l :=
  List.dropWhile_cons_of_neg (by simp)

lemma splitPort_spec {auth host : List Char} {port : Option (List Char)}
    (h : splitPort auth = some (host, port)) :
    host = auth.takeWhile (fun c => c ≠ ':') ∧
    ∀ ds, port = some ds → ds ≠ [] ∧ ds.all Char.isDigit := by
  unfold splitPort at h
  dsimp only at h
  split at h
  · simp only [Option.some.injEq, Prod.mk.injEq] at h
    obtain ⟨rfl, rfl⟩ := h
    exact ⟨rfl, fun ds hds => by cases hds⟩
  · split at h
    case isFalse => exact absurd h (by simp)
    case isTrue hds =>
      simp only [Option.some.injEq, Prod.mk.injEq] at h
      obtain ⟨rfl, rfl⟩ := h
      refine ⟨rfl, fun ds hds' => ?_⟩
      cases hds'
      exact hds

lemma parseUrl_wf {l : List Char} {o : Origin} (h : parseUrl l = some o) :
    OriginWF o := by
  unfold parseUrl at h
  dsimp only at h
  split at h
  case isFalse => exact absurd h (by simp)
  case isTrue hguard =>
    rw [Option.map_eq_some'] at h
    obtain ⟨⟨host, port⟩, hsp, rfl⟩ := h
    obtain ⟨hhost, hport⟩ := splitPort_spec hsp
    subst hhost
    refine ⟨hguard.1, hguard.2.1, ?_, ?_, hport⟩
    · refine List.all_eq_true.mpr fun c hc => ?_
      have hc' : c ∈ List.takeWhile (fun c => decide (c ≠ ':'))
          (List.takeWhile isAuthChar
            (List.drop 3 (List.dropWhile (fun c => decide (c ≠ ':')) l))) := hc
      have h9 := List.mem_takeWhile_imp hc'
      exact h9
    · refine List.all_eq_true.mpr fun c hc => ?_
      have hc' : c ∈ List.takeWhile (fun c => decide (c ≠ ':'))
          (List.takeWhile isAuthChar
            (List.drop 3 (List.dropWhile (fun c => decide (c ≠ ':')) l))) := hc
      have h9 := List.mem_takeWhile_imp ((List.takeWhile_sublist _).subset hc')
      exact h9

lemma splitPort_no_colon {hst : List Char}
    (hhc : ∀ c ∈ hst, (fun c => decide (c ≠ ':')) c = true) :
    splitPort hst = some (hst, none) := by
  unfold splitPort
  dsimp only
  rw [show List.dropWhile (fun c => decide (c ≠ ':')) hst = [] from
    List.dropWhile_eq_nil_iff.mpr hhc]
  rw [if_pos rfl, List.takeWhile_eq_self_iff.mpr hhc]

lemma splitPort_with_port {hst ds : List Char}
    (hhc : ∀ c ∈ hst, (fun c => decide (c ≠ ':')) c = true)
    (hds1 : ds ≠ []) (hds2 : ds.all Char.isDigit) :
    splitPort (hst ++ ':' :: ds) = some (hst, some ds) := by
  have hcolonF : ¬ ((fun c => decide (c ≠ ':')) ':' = true) := by simp
  unfold splitPort
  dsimp only
  rw [List.dropWhile_append_of_pos hhc, dropWhile_colon_cons,
    List.takeWhile_append_of_pos hhc, takeWhile_colon_cons,
    List.append_nil]
  rw [if_neg (by simp), List.tail_cons, if_pos ⟨hds1, hds2⟩]

lemma parseUrl_render_none {s hst : List Char} (h1 : s ≠ [])
    (h2 : s.all Char.isAlpha) (h3 : hst.all (fun c => c ≠ ':'))
    (h4 : hst.all isAuthChar) :
    parseUrl (renderOrigin ⟨s, hst, none⟩) = some ⟨s, hst, none⟩ := by
  have hsc : ∀ c ∈ s, (fun c => decide (c ≠ ':')) c = true := fun c hc => by
    simpa using isAlpha_ne_colon (List.all_eq_true.mp h2 c hc)
  have hhc : ∀ c ∈ hst, (fun c => decide (c ≠ ':')) c = true := fun c hc => by
    simpa using of_decide_eq_true (List.all_eq_true.mp h3 c hc)
  have hha : ∀ c ∈ hst, isAuthChar c = true := List.all_eq_true.mp h4
  have hcolonF : ¬ ((fun c => decide (c ≠ ':')) ':' = true) := by simp
  unfold renderOrigin parseUrl
  dsimp only
  simp only [List.append_nil, List.takeWhile_append_of_pos hsc,
    List.dropWhile_append_of_pos hsc, takeWhile_colon_cons,
    dropWhile_colon_cons]
  split
  case isFalse hneg => exact absurd ⟨h1, h2, by simp⟩ hneg
  case isTrue =>
    simp only [List.drop_succ_cons, List.drop_zero]
    rw [List.takeWhile_eq_self_iff.mpr hha, splitPort_no_colon hhc]
    rfl

lemma parseUrl_render_some {s hst ds : List Char} (h1 : s ≠ [])
    (h2 : s.all Char.isAlpha) (h3 : hst.all (fun c => c ≠ ':'))
    (h4 : hst.all isAuthChar) (hds1 : ds ≠ []) (hds2 : ds.all Char.isDigit) :
    parseUrl (renderOrigin ⟨s, hst, some ds⟩) = some ⟨s, hst, some ds⟩ := by
  have hsc : ∀ c ∈ s, (fun c => decide (c ≠ ':')) c = true := fun c hc => by
    simpa using isAlpha_ne_colon (List.all_eq_true.mp h2 c hc)
  have hhc : ∀ c ∈ hst, (fun c => decide (c ≠ ':')) c = true := fun c hc => by
    simpa using of_decide_eq_true (List.all_eq_true.mp h3 c hc)
  have hha : ∀ c ∈ hst, isAuthChar c = true := List.all_eq_true.mp h4
  have hdsa : ∀ c ∈ ds, isAuthChar c = true := fun c hc =>
    isDigit_isAuthChar (List.all_eq_true.mp hds2 c hc)
  have hcolonF : ¬ ((fun c => decide (c ≠ ':')) ':' = true) := by simp
  unfold renderOrigin parseUrl
  dsimp only
  simp only [List.takeWhile_append_of_pos hsc, List.dropWhile_append_of_pos hsc,
    takeWhile_colon_cons, dropWhile_colon_cons, List.append_nil]
  split
  case isFalse hneg => exact absurd ⟨h1, h2, by simp⟩ hneg
  case isTrue =>
    simp only [List.drop_succ_cons, List.drop_zero]
    rw [List.takeWhile_append_of_pos hha,
      List.takeWhile_cons_of_pos (by simp [isAuthChar]),
      List.takeWhile_eq_self_iff.mpr hdsa,
      splitPort_with_port hhc hds1 hds2]
    rfl

lemma parseUrl_render {o : Origin} (wf : OriginWF o) :
    parseUrl (renderOrigin o) = some o := by
  obtain ⟨s, hst, p⟩ := o
  obtain ⟨h1, h2, h3, h4, h5⟩ := wf
  cases p with
  | none => exact parseUrl_render_none h1 h2 h3 h4
  | some ds =>
    obtain ⟨hd1, hd2⟩ := h5 ds rfl
    exact parseUrl_render_some h1 h2 h3 h4 hd1 hd2

/-- Idempotence of `normalize_issuer`. -/
lemma normalize_issuer_idem (l : List Char) :
    normalize_issuer (normalize_issuer l) = normalize_issuer l := by
  rcases h : parseUrl l with _ | o
  · simp [normalize_issuer, h]
  · have wf := parseUrl_wf h
    simp [normalize_issuer, h, parseUrl_render wf]

lemma normalizeIssuerStr_idem (s : String) :
    normalizeIssuerStr (normalizeIssuerStr s) = normalizeIssuerStr s := by
  unfold normalizeIssuerStr
  exact congrArg String.mk (normalize_issuer_idem s.data)


/-! ## Claims about the key-set cache and the attempt count -/

/-- C5: for every cached key set with `cached_at ≤ now` (the domain on
which the `u64` subtraction is defined), freshness (`is_expired = false`)
holds iff `now − cached_at ≤ ttl`; in particular `cached_at = 0`,
`ttl = 3600` is stale for any `now > 3600`. -/
theorem is_expired_fresh_iff (c : JwksCache) (now : Nat)
    (h : c.cached_at ≤ now) :
    (c.is_expired now = some false ↔ now - c.cached_at ≤ c.ttl_seconds) ∧
    (c.cached_at = 0 → c.ttl_seconds = 3600 → 3600 < now →
      c.is_expired now = some true) := by
  unfold JwksCache.is_expired u64Sub
  rw [if_pos h]
  refine ⟨?_, ?_⟩
  · simp [Nat.not_lt]
  · intro h0 h1 h2
    simp only [h0, h1, Nat.sub_zero, Option.map_some']
    simpa using h2

theorem is_expired_fresh_iff_witness :
    (10 : Nat) ≤ 4000 ∧
    ((JwksCache.mk ⟨[]⟩ 10 3600).is_expired 4000 = some false ↔
      4000 - 10 ≤ 3600) ∧
    (JwksCache.mk ⟨[]⟩ 0 3600).is_expired 4000 = some true :=
  ⟨by decide, (is_expired_fresh_iff ⟨⟨[]⟩, 10, 3600⟩ 4000 (by decide)).1,
    (is_expired_fresh_iff ⟨⟨[]⟩, 0, 3600⟩ 4000 (by decide)).2 rfl rfl
      (by decide)⟩

/-- C10: the freshness check's `u64` subtraction `now - cached_at` is
unguarded, so `is_expired` is total exactly when `cached_at ≤ now`; for a
cache stamped in the future the subtraction underflows (`none`) instead
of classifying the cache as fresh or stale. -/
theorem is_expired_total_iff (c : JwksCache) (now : Nat) :
    ((c.is_expired now).isSome ↔ c.cached_at ≤ now) ∧
    (now < c.cached_at → c.is_expired now = none) := by
  by_cases h : c.cached_at ≤ now <;>
    simp [JwksCache.is_expired, u64Sub, h, Nat.lt_of_not_le, Nat.not_le.mpr]

theorem is_expired_total_iff_witness :
    (5 : Nat) < 10 ∧ (JwksCache.mk ⟨[]⟩ 10 3600).is_expired 5 = none :=
  ⟨by decide, (is_expired_total_iff ⟨⟨[]⟩, 10, 3600⟩ 5).2 (by decide)⟩

/-- C9: for every non-negative `expires_in_seconds`, the polling loop's
maximum attempt count equals `⌊expires_in_seconds / 5⌋ + 2`; in
particular `expires_in_seconds = 12` gives 4 attempts. -/
theorem maxAttempts_eq_floor (e : ℚ) (h : 0 ≤ e) :
    maxAttempts e = ⌊e / (5 : ℕ)⌋₊ + 2 ∧ maxAttempts 12 = 4 := by
  constructor
  · unfold maxAttempts pollIntervalSecs
    rw [Int.floor_toNat, ← Nat.floor_div_nat]
  · have h12 : ⌊(12 : ℚ)⌋ = 12 := by norm_num
    unfold maxAttempts pollIntervalSecs
    rw [h12]
    decide

theorem maxAttempts_eq_floor_witness :
    (0 : ℚ) ≤ 12 ∧ maxAttempts 12 = ⌊(12 : ℚ) / (5 : ℕ)⌋₊ + 2 ∧
    maxAttempts 12 = 4 :=
  ⟨by norm_num, (maxAttempts_eq_floor 12 (by norm_num)).1,
    (maxAttempts_eq_floor 12 (by norm_num)).2⟩



/-! ## Helper lemmas about the validation pipeline -/

lemma validate_findKey_error {t : Token} {api : String} {jwks : Jwks}
    {now : Int} {header : JwtHeader} {e : ValidationError}
    (ht : t.header = some header) (hne : jwks.keys.isEmpty = false)
    (hf : findKey jwks.keys (resolveKid t now) = .error e) :
    validate_jwt_token t api jwks now = .error e := by
  unfold validate_jwt_token
  rw [ht]
  dsimp only
  rw [hne]
  simp only [Bool.false_eq_true, if_false]
  rw [hf]

lemma validate_sig_stage {t : Token} {api : String} {jwks : Jwks} {now : Int}
    {header : JwtHeader} {jwk : JwkKey}
    (ht : t.header = some header) (hne : jwks.keys.isEmpty = false)
    (hfind : findKey jwks.keys (resolveKid t now) = .ok jwk)
    (hkty : jwk.kty = "RSA") (halg : header.alg = "RS256") :
    validate_jwt_token t api jwks now =
      if t.sigValid jwk then
        match t.payload with
        | none => .error .parseError
        | some c =>
          if c.exp < now - leeway then .error .expiredToken
          else
            let claims := { c with kid := header.kid.or c.kid }
            if normalizeIssuerStr claims.iss ≠ normalizeIssuerStr api then
              .error .issuerMismatch
            else if claims.sub.isEmpty then .error .missingSubject
            else .ok claims
      else .error .signatureInvalid := by
  unfold validate_jwt_token
  rw [ht]
  dsimp only
  rw [hne]
  simp only [Bool.false_eq_true, if_false]
  rw [hfind]
  dsimp only
  rw [if_neg (by simp [hkty]), if_neg (by simp [halg]), ite_not]

lemma validate_ok_not_expired {t : Token} {api : String} {jwks : Jwks}
    {now : Int} {r : JwtClaims}
    (h : validate_jwt_token t api jwks now = .ok r) :
    ∃ c, t.payload = some c ∧ ¬ (c.exp < now - leeway) := by
  unfold validate_jwt_token at h
  split at h
  · exact absurd h (by simp)
  · split at h
    · exact absurd h (by simp)
    · split at h
      · exact absurd h (by simp)
      · split at h
        · exact absurd h (by simp)
        · split at h
          · exact absurd h (by simp)
          · split at h
            · exact absurd h (by simp)
            · split at h
              · exact absurd h (by simp)
              case h_2 c heq =>
                split at h
                · exact absurd h (by simp)
                case isFalse hexp => exact ⟨c, heq, hexp⟩



lemma lt_now_of_lt_now_sub_leeway {e now : Int} (h : e < now - leeway) :
    e < now := by
  have h0 : (0 : Int) ≤ leeway := by norm_num [leeway]
  omega

/-! ## Claims about the token validator -/

/-- C1 (amended): a token whose `exp` lies more than the 60-second
default leeway in the past (`exp < now − 60`) never validates; it yields
`ExpiredToken` when the declared algorithm is RS256 and the signature
verifies under the selected key, but `SignatureInvalid` when the
signature does not verify — the signature is checked before the expiry
claim.  A token whose `exp` is within the leeway window is not rejected
as expired. -/
theorem expired_token_behavior (t : Token) (api : String) (jwks : Jwks)
    (now : Int) (c : JwtClaims)
    (hpay : t.payload = some c) (hexp : c.exp < now - leeway) :
    (∀ r, validate_jwt_token t api jwks now ≠ .ok r) ∧
    ∀ (header : JwtHeader) (jwk : JwkKey),
      t.header = some header → jwks.keys.isEmpty = false →
      findKey jwks.keys (resolveKid t now) = .ok jwk →
      jwk.kty = "RSA" → header.alg = "RS256" →
      (t.sigValid jwk = true →
        validate_jwt_token t api jwks now = .error .expiredToken) ∧
      (t.sigValid jwk = false →
        validate_jwt_token t api jwks now = .error .signatureInvalid) := by
  constructor
  · intro r hok
    obtain ⟨c', hc', hexp'⟩ := validate_ok_not_expired hok
    rw [hpay] at hc'
    cases hc'
    exact hexp' hexp
  · intro header jwk ht hne hfind hkty halg
    rw [validate_sig_stage ht hne hfind hkty halg]
    constructor
    · intro hsig
      rw [if_pos hsig, hpay]
      dsimp only
      rw [if_pos hexp]
    · intro hsig
      rw [if_neg (by simp [hsig])]

/-- Witness for C1 (amended): an expired token (`exp = 0`, `now = 100`)
with a valid signature yields `ExpiredToken`; the same token with an
invalid signature yields `SignatureInvalid`. -/
theorem expired_token_behavior_witness :
    validate_jwt_token
        ⟨some ⟨"RS256", some "k1"⟩,
         some ⟨"http://a.com", "user", none, 0, 0, none, none, none⟩,
         fun _ => true⟩
        "http://a.com" ⟨[⟨"RSA", "sig", "k1", "RS256", "n1", "e1"⟩]⟩ 100 =
      .error .expiredToken ∧
    validate_jwt_token
        ⟨some ⟨"RS256", some "k1"⟩,
         some ⟨"http://a.com", "user", none, 0, 0, none, none, none⟩,
         fun _ => false⟩
        "http://a.com" ⟨[⟨"RSA", "sig", "k1", "RS256", "n1", "e1"⟩]⟩ 100 =
      .error .signatureInvalid :=
  ⟨(((expired_token_behavior
      ⟨some ⟨"RS256", some "k1"⟩,
       some ⟨"http://a.com", "user", none, 0, 0, none, none, none⟩,
       fun _ => true⟩
      "http://a.com" ⟨[⟨"RSA", "sig", "k1", "RS256", "n1", "e1"⟩]⟩ 100
      ⟨"http://a.com", "user", none, 0, 0, none, none, none⟩
      rfl (by decide)).2
      ⟨"RS256", some "k1"⟩ ⟨"RSA", "sig", "k1", "RS256", "n1", "e1"⟩
      rfl rfl rfl rfl rfl).1 rfl),
   (((expired_token_behavior
      ⟨some ⟨"RS256", some "k1"⟩,
       some ⟨"http://a.com", "user", none, 0, 0, none, none, none⟩,
       fun _ => false⟩
      "http://a.com" ⟨[⟨"RSA", "sig", "k1", "RS256", "n1", "e1"⟩]⟩ 100
      ⟨"http://a.com", "user", none, 0, 0, none, none, none⟩
      rfl (by decide)).2
      ⟨"RS256", some "k1"⟩ ⟨"RSA", "sig", "k1", "RS256", "n1", "e1"⟩
      rfl rfl rfl rfl rfl).2 rfl)⟩

/-- Counterexample to C1 as stated: (i) this token's `exp` (0) is in the
past (`now = 100`), yet validation returns `SignatureInvalid`, not
`ExpiredToken`, because its signature is invalid for the selected key;
(ii) a token whose `exp` (70) is also in the past but within the crate's
60-second leeway validates successfully — neither case yields
`ExpiredToken`. -/
theorem expired_token_cex :
    (validate_jwt_token
        ⟨some ⟨"RS256", some "k1"⟩,
         some ⟨"http://a.com", "user", none, 0, 0, none, none, none⟩,
         fun _ => false⟩
        "http://a.com" ⟨[⟨"RSA", "sig", "k1", "RS256", "n1", "e1"⟩]⟩ 100 ≠
      .error .expiredToken ∧
    (0 : Int) < 100) ∧
    (validate_jwt_token
        ⟨some ⟨"RS256", some "k1"⟩,
         some ⟨"http://a.com", "user", none, 70, 0, none, none, none⟩,
         fun _ => true⟩
        "http://a.com" ⟨[⟨"RSA", "sig", "k1", "RS256", "n1", "e1"⟩]⟩ 100 =
      .ok ⟨"http://a.com", "user", none, 70, 0, some "k1", none, none⟩ ∧
    (70 : Int) < 100) := by
  refine ⟨⟨?_, by decide⟩, rfl, by decide⟩
  intro h
  have h2 : validate_jwt_token
      ⟨some ⟨"RS256", some "k1"⟩,
       some ⟨"http://a.com", "user", none, 0, 0, none, none, none⟩,
       fun _ => false⟩
      "http://a.com" ⟨[⟨"RSA", "sig", "k1", "RS256", "n1", "e1"⟩]⟩ 100 =
      .error .signatureInvalid := rfl
  rw [h] at h2
  exact absurd h2 (by simp)



lemma findKey_exact (keys : List JwkKey) (k : String) (j : JwkKey)
    (hj : j ∈ keys) (hkid : j.kid = k) :
    ∃ j', findKey keys (some k) = .ok j' ∧ j'.kid = k := by
  have hsome : (keys.find? (fun j => j.kid == k)).isSome :=
    List.find?_isSome.mpr ⟨j, hj, by simp [hkid]⟩
  obtain ⟨j', hj'⟩ := Option.isSome_iff_exists.mp hsome
  refine ⟨j', ?_, by simpa using List.find?_some hj'⟩
  unfold findKey
  dsimp only
  rw [hj']

/-- C3: with a resolved key identifier that matches no key in the fetched
set, validation fails with `KeyNotFound` (naming that kid) and never with
`SignatureInvalid`; with a resolved kid the key is selected by exact kid
match, and with none resolved the first RS256 key of the set is used. -/
theorem keyNotFound_spec :
    (∀ (t : Token) (api : String) (jwks : Jwks) (now : Int) (k : String),
      t.header.isSome = true → jwks.keys ≠ [] →
      resolveKid t now = some k → (∀ j ∈ jwks.keys, j.kid ≠ k) →
      validate_jwt_token t api jwks now = .error (.keyNotFound k) ∧
      validate_jwt_token t api jwks now ≠ .error .signatureInvalid) ∧
    (∀ (keys : List JwkKey) (k : String) (j : JwkKey),
      findKey keys (some k) = .ok j → j.kid = k) ∧
    (∀ (keys : List JwkKey) (k : String) (j : JwkKey),
      j ∈ keys → j.kid = k → ∃ j', findKey keys (some k) = .ok j' ∧ j'.kid = k) ∧
    (∀ keys : List JwkKey,
      findKey keys none =
        match keys.find? (fun j => j.alg == "RS256") with
        | some j => .ok j
        | none => .error .noRs256Key) := by
  refine ⟨?_, ?_, ?_, ?_⟩
  · intro t api jwks now k hsome hne hkid hnok
    obtain ⟨header, ht⟩ := Option.isSome_iff_exists.mp hsome
    have hfind : findKey jwks.keys (resolveKid t now) = .error (.keyNotFound k) := by
      rw [hkid]
      unfold findKey
      dsimp only
      rw [List.find?_eq_none.mpr (fun j hj => by simp [hnok j hj])]
    have hv : validate_jwt_token t api jwks now = .error (.keyNotFound k) :=
      validate_findKey_error ht (by simpa using hne) hfind
    exact ⟨hv, by rw [hv]; simp⟩
  · intro keys k j hfind
    unfold findKey at hfind
    dsimp only at hfind
    split at hfind
    case h_1 j' heq =>
      cases hfind
      simpa using List.find?_some heq
    case h_2 => exact absurd hfind (by simp)
  · intro keys k j hj hkid
    exact findKey_exact keys k j hj hkid
  · intro keys
    unfold findKey
    rfl

/-- Witness for C3: a token resolving kid `"k2"` against a set holding
only `"k1"` fails with `KeyNotFound "k2"`; exact-match selection and the
RS256 fallback on concrete sets. -/
theorem keyNotFound_spec_witness :
    validate_jwt_token
        ⟨some ⟨"RS256", some "k2"⟩,
         some ⟨"http://a.com", "user", none, 1000, 0, none, none, none⟩,
         fun _ => true⟩
        "http://a.com" ⟨[⟨"RSA", "sig", "k1", "RS256", "n1", "e1"⟩]⟩ 100 =
      .error (.keyNotFound "k2") ∧
    (∃ j', findKey [⟨"RSA", "sig", "k1", "RS256", "n1", "e1"⟩] (some "k1") =
      .ok j' ∧ j'.kid = "k1") ∧
    findKey [⟨"RSA", "sig", "k1", "RS256", "n1", "e1"⟩] none =
      match [JwkKey.mk "RSA" "sig" "k1" "RS256" "n1" "e1"].find?
          (fun j => j.alg == "RS256") with
      | some j => .ok j
      | none => .error .noRs256Key :=
  ⟨(keyNotFound_spec.1
      ⟨some ⟨"RS256", some "k2"⟩,
       some ⟨"http://a.com", "user", none, 1000, 0, none, none, none⟩,
       fun _ => true⟩
      "http://a.com" ⟨[⟨"RSA", "sig", "k1", "RS256", "n1", "e1"⟩]⟩ 100 "k2"
      rfl (by simp) rfl (by decide)).1,
   keyNotFound_spec.2.2.1 [⟨"RSA", "sig", "k1", "RS256", "n1", "e1"⟩] "k1"
      ⟨"RSA", "sig", "k1", "RS256", "n1", "e1"⟩ (by simp) rfl,
   keyNotFound_spec.2.2.2 [⟨"RSA", "sig", "k1", "RS256", "n1", "e1"⟩]⟩



/-- C4 (amended): when the header carries no kid and the payload passes
the unverified read's claim validation (in particular its `exp` is not in
the past), the payload `kid` is recovered and, when a key with that kid
is in the fetched set, that key is selected; the final key identifier is
the header value if present, else the payload-recovered value. -/
theorem payload_kid_resolution :
    (∀ (t : Token) (now : Int) (header : JwtHeader) (c : JwtClaims)
       (k : String),
      t.header = some header → header.kid = none →
      t.payload = some c → ¬ (c.exp < now) → c.kid = some k →
      resolveKid t now = some k ∧
      ∀ (keys : List JwkKey) (j : JwkKey), j ∈ keys → j.kid = k →
        ∃ j', findKey keys (resolveKid t now) = .ok j' ∧ j'.kid = k) ∧
    (∀ (t : Token) (now : Int) (header : JwtHeader),
      t.header = some header → header.kid.isSome = true →
      resolveKid t now = header.kid) := by
  constructor
  · intro t now header c k ht hhk hpay hexp hck
    have hres : resolveKid t now = some k := by
      unfold resolveKid
      rw [ht]
      dsimp only
      rw [hhk]
      unfold insecureDecode
      rw [ht, hpay]
      dsimp only
      rw [if_neg (fun hlt => hexp (lt_now_of_lt_now_sub_leeway hlt))]
      simpa using hck
    refine ⟨hres, ?_⟩
    intro keys j hj hjk
    rw [hres]
    exact findKey_exact keys k j hj hjk
  · intro t now header ht hk
    obtain ⟨k, hk'⟩ := Option.isSome_iff_exists.mp hk
    unfold resolveKid
    rw [ht]
    dsimp only
    rw [hk']
    rfl

/-- Witness for C4 (amended): a non-expired token with no header kid and
payload kid `"k1"` resolves to `"k1"` and selects the key with kid `"k1"`
from a two-key set; a token with header kid `"kh"` keeps it. -/
theorem payload_kid_resolution_witness :
    resolveKid
      ⟨some ⟨"RS256", none⟩,
       some ⟨"http://a.com", "u", none, 1000, 0, some "k1", none, none⟩,
       fun _ => true⟩ 100 = some "k1" ∧
    (∃ j', findKey
        [⟨"RSA", "sig", "k0", "RS256", "n0", "e0"⟩,
         ⟨"RSA", "sig", "k1", "RS256", "n1", "e1"⟩]
        (resolveKid
          ⟨some ⟨"RS256", none⟩,
           some ⟨"http://a.com", "u", none, 1000, 0, some "k1", none, none⟩,
           fun _ => true⟩ 100) = .ok j' ∧ j'.kid = "k1") ∧
    resolveKid
      ⟨some ⟨"RS256", some "kh"⟩,
       some ⟨"http://a.com", "u", none, 1000, 0, some "k1", none, none⟩,
       fun _ => true⟩ 100 = some "kh" :=
  ⟨(payload_kid_resolution.1
      ⟨some ⟨"RS256", none⟩,
       some ⟨"http://a.com", "u", none, 1000, 0, some "k1", none, none⟩,
       fun _ => true⟩ 100 ⟨"RS256", none⟩
      ⟨"http://a.com", "u", none, 1000, 0, some "k1", none, none⟩ "k1"
      rfl rfl rfl (by decide) rfl).1,
   (payload_kid_resolution.1
      ⟨some ⟨"RS256", none⟩,
       some ⟨"http://a.com", "u", none, 1000, 0, some "k1", none, none⟩,
       fun _ => true⟩ 100 ⟨"RS256", none⟩
      ⟨"http://a.com", "u", none, 1000, 0, some "k1", none, none⟩ "k1"
      rfl rfl rfl (by decide) rfl).2
      [⟨"RSA", "sig", "k0", "RS256", "n0", "e0"⟩,
       ⟨"RSA", "sig", "k1", "RS256", "n1", "e1"⟩]
      ⟨"RSA", "sig", "k1", "RS256", "n1", "e1"⟩ (by simp) rfl,
   payload_kid_resolution.2
      ⟨some ⟨"RS256", some "kh"⟩,
       some ⟨"http://a.com", "u", none, 1000, 0, some "k1", none, none⟩,
       fun _ => true⟩ 100 ⟨"RS256", some "kh"⟩ rfl rfl⟩

/-- Counterexample to C4 as stated: this token has no header kid and
payload kid `"k1"`, and a key `"k1"` is present in the set — but because
its `exp` (0) is in the past the unverified payload read fails claim
validation, nothing is recovered, and the RS256 fallback selects the
first key `"k0"`, not `"k1"`. -/
theorem payload_kid_resolution_cex :
    resolveKid
      ⟨some ⟨"RS256", none⟩,
       some ⟨"http://a.com", "u", none, 0, 0, some "k1", none, none⟩,
       fun _ => true⟩ 100 = none ∧
    findKey
      [⟨"RSA", "sig", "k0", "RS256", "n0", "e0"⟩,
       ⟨"RSA", "sig", "k1", "RS256", "n1", "e1"⟩]
      (resolveKid
        ⟨some ⟨"RS256", none⟩,
         some ⟨"http://a.com", "u", none, 0, 0, some "k1", none, none⟩,
         fun _ => true⟩ 100) =
      .ok ⟨"RSA", "sig", "k0", "RS256", "n0", "e0"⟩ ∧
    "k0" ≠ "k1" := by
  refine ⟨rfl, rfl, by decide⟩



/-- C6: issuer normalization is idempotent and path-insensitive
(`normalize("http://a.com/x/y") = normalize("http://a.com") =
"http://a.com"`), and validation compares the normalized issuer claim
with the normalized expected origin, failing with `IssuerMismatch` when
they differ. -/
theorem normalize_issuer_spec :
    (∀ s : String,
      normalizeIssuerStr (normalizeIssuerStr s) = normalizeIssuerStr s) ∧
    normalizeIssuerStr "http://a.com/x/y" = "http://a.com" ∧
    normalizeIssuerStr "http://a.com" = "http://a.com" ∧
    (∀ (t : Token) (api : String) (jwks : Jwks) (now : Int)
       (header : JwtHeader) (jwk : JwkKey) (c : JwtClaims),
      t.header = some header → jwks.keys.isEmpty = false →
      findKey jwks.keys (resolveKid t now) = .ok jwk →
      jwk.kty = "RSA" → header.alg = "RS256" → t.sigValid jwk = true →
      t.payload = some c → ¬ (c.exp < now) →
      normalizeIssuerStr c.iss ≠ normalizeIssuerStr api →
      validate_jwt_token t api jwks now = .error .issuerMismatch) := by
  refine ⟨normalizeIssuerStr_idem, by decide, by decide, ?_⟩
  intro t api jwks now header jwk c ht hne hfind hkty halg hsig hpay hexp hiss
  rw [validate_sig_stage ht hne hfind hkty halg, if_pos hsig, hpay]
  dsimp only
  rw [if_neg (fun hlt => hexp (lt_now_of_lt_now_sub_leeway hlt)), if_pos hiss]

/-- Witness for C6: idempotence and path-insensitivity at the concrete
inputs of the spec, and a concrete issuer-mismatched token rejected with
`IssuerMismatch`. -/
theorem normalize_issuer_spec_witness :
    normalizeIssuerStr (normalizeIssuerStr "http://a.com/x/y") =
      normalizeIssuerStr "http://a.com/x/y" ∧
    normalizeIssuerStr "http://a.com/x/y" = "http://a.com" ∧
    validate_jwt_token
        ⟨some ⟨"RS256", some "k1"⟩,
         some ⟨"http://b.com", "user", none, 1000, 0, none, none, none⟩,
         fun _ => true⟩
        "http://a.com" ⟨[⟨"RSA", "sig", "k1", "RS256", "n1", "e1"⟩]⟩ 100 =
      .error .issuerMismatch :=
  ⟨normalize_issuer_spec.1 "http://a.com/x/y",
   normalize_issuer_spec.2.1,
   normalize_issuer_spec.2.2.2
      ⟨some ⟨"RS256", some "k1"⟩,
       some ⟨"http://b.com", "user", none, 1000, 0, none, none, none⟩,
       fun _ => true⟩
      "http://a.com" ⟨[⟨"RSA", "sig", "k1", "RS256", "n1", "e1"⟩]⟩ 100
      ⟨"RS256", some "k1"⟩ ⟨"RSA", "sig", "k1", "RS256", "n1", "e1"⟩
      ⟨"http://b.com", "user", none, 1000, 0, none, none, none⟩
      rfl rfl rfl rfl rfl rfl rfl (by decide) (by decide)⟩



/-! ## Helper lemmas about the login orchestrator -/

lemma login_to_pollLoop (env : LoginEnv) (s : StartLoginResponse)
    (hstored : env.storedAuth = none) (hstart : env.startResp = some s)
    (hpos : 0 < s.expires_in_seconds) :
    login env =
      pollLoop env (maxAttempts s.expires_in_seconds) 1 [.netStartLogin] := by
  unfold login
  rw [hstored]
  unfold loginStart
  rw [hstart]
  dsimp only
  rw [if_neg (not_le.mpr hpos)]

lemma pollLoop_authenticated (env : LoginEnv) (r : CheckLoginResponse)
    (tok : String) (remaining attempt : Nat) (acc : List LoginEffect)
    (hpoll : env.pollResp attempt = some r)
    (hst : r.status = "authenticated") (htok : r.token = some tok) :
    pollLoop env (remaining + 1) attempt acc =
      (.authenticated,
        acc ++ [.netCheckLogin attempt,
          .saveAuth ⟨tok, r.expires_in.map (fun sec => env.now + sec), r.user⟩] ++
          if env.validateToken tok then [] else [.warnTokenValidationFailed]) := by
  unfold pollLoop
  dsimp only
  rw [hpoll]
  dsimp only
  rw [if_pos hst, htok]
  dsimp only
  cases hv : env.validateToken tok with
  | true => simp
  | false => simp

lemma pollLoop_no_save (env : LoginEnv) (remaining : Nat) :
    ∀ (attempt : Nat) (acc : List LoginEffect),
    (∀ a : CliAuth, LoginEffect.saveAuth a ∉ acc) →
    (pollLoop env remaining attempt acc).1 ≠ .authenticated →
    ∀ a : CliAuth, LoginEffect.saveAuth a ∉ (pollLoop env remaining attempt acc).2 := by
  induction remaining with
  | zero =>
    intro attempt acc hacc hout a
    simpa [pollLoop] using hacc a
  | succ n ih =>
    intro attempt acc hacc hout a
    unfold pollLoop at hout ⊢
    dsimp only at hout ⊢
    rcases hresp : env.pollResp attempt with _ | r
    · simpa using hacc a
    · rw [hresp] at hout
      dsimp only at hout
      dsimp only
      by_cases hauth : r.status = "authenticated"
      · rw [if_pos hauth] at hout ⊢
        rcases htok : r.token with _ | tok
        · simpa using hacc a
        · rw [htok] at hout
          dsimp only at hout
          dsimp only
          refine absurd ?_ hout
          split <;> rfl
      · rw [if_neg hauth] at hout ⊢
        by_cases hpend : r.status = "pending"
        · rw [if_pos hpend] at hout ⊢
          exact ih (attempt + 1) (acc ++ [.netCheckLogin attempt])
            (fun a' => by simpa using hacc a') hout a
        · rw [if_neg hpend] at hout ⊢
          by_cases hexp : r.status = "expired"
          · rw [if_pos hexp] at hout ⊢
            simpa using hacc a
          · rw [if_neg hexp] at hout ⊢
            by_cases hinv : r.status = "invalid"
            · rw [if_pos hinv] at hout ⊢
              simpa using hacc a
            · rw [if_neg hinv] at hout ⊢
              simpa using hacc a

lemma loginStart_no_save (env : LoginEnv)
    (hout : (loginStart env).1 ≠ .authenticated) :
    ∀ a : CliAuth, LoginEffect.saveAuth a ∉ (loginStart env).2 := by
  intro a
  unfold loginStart at hout ⊢
  rcases hstart : env.startResp with _ | sd
  · simp
  · rw [hstart] at hout
    dsimp only at hout
    dsimp only
    by_cases hle : sd.expires_in_seconds ≤ 0
    · rw [if_pos hle] at hout ⊢
      simp
    · rw [if_neg hle] at hout ⊢
      exact pollLoop_no_save env (maxAttempts sd.expires_in_seconds) 1
        [.netStartLogin] (by simp) hout a

lemma login_no_save_aux (env : LoginEnv)
    (hne : (login env).1 ≠ .authenticated) :
    ∀ a : CliAuth, LoginEffect.saveAuth a ∉ (login env).2 := by
  intro a
  unfold login at hne ⊢
  rcases hstored : env.storedAuth with _ | auth
  · rw [hstored] at hne
    exact loginStart_no_save env hne a
  · rw [hstored] at hne
    dsimp only at hne
    dsimp only
    by_cases hv : env.validateToken auth.token
    · rw [if_pos hv] at hne ⊢
      simp
    · rw [if_neg hv] at hne ⊢
      exact loginStart_no_save env hne a



/-! ## Claims about the login orchestrator -/

/-- C2 (amended): when a previously stored credential exists and its
token still passes the SDK validation, `login` short-circuits to the
already-authenticated success with only the "logout first" notice as
effect — in particular no start-login or check-login network request and
no credential write; when the stored token fails validation, the flow
proceeds with a fresh login instead. -/
theorem login_short_circuit (env : LoginEnv) (a : CliAuth)
    (hstored : env.storedAuth = some a)
    (hvalid : env.validateToken a.token = true) :
    login env = (.alreadyAuthenticated, [.informLogoutRequired]) ∧
    LoginEffect.netStartLogin ∉ (login env).2 ∧
    (∀ n, LoginEffect.netCheckLogin n ∉ (login env).2) ∧
    (∀ b : CliAuth, LoginEffect.saveAuth b ∉ (login env).2) ∧
    LoginEffect.informLogoutRequired ∈ (login env).2 := by
  have h : login env = (.alreadyAuthenticated, [.informLogoutRequired]) := by
    unfold login
    rw [hstored]
    dsimp only
    rw [if_pos hvalid]
  refine ⟨h, ?_, ?_, ?_, ?_⟩ <;> simp [h]

/-- Witness for C2 (amended): a concrete environment with a stored,
still-valid credential short-circuits with only the notice effect. -/
theorem login_short_circuit_witness :
    login ⟨some ⟨"tok", none, none⟩, fun _ => true, none, fun _ => none, 0⟩ =
      (.alreadyAuthenticated, [.informLogoutRequired]) :=
  (login_short_circuit
    ⟨some ⟨"tok", none, none⟩, fun _ => true, none, fun _ => none, 0⟩
    ⟨"tok", none, none⟩ rfl rfl).1

/-- Counterexample to C2 as stated: a stored credential exists, but its
token fails validation, so the flow does not short-circuit — it performs
the start-login network request (here failing, hence `failed`). -/
theorem login_short_circuit_cex :
    (⟨some ⟨"tok", none, none⟩, fun _ => false, none, fun _ => none, 0⟩ :
        LoginEnv).storedAuth = some ⟨"tok", none, none⟩ ∧
    login ⟨some ⟨"tok", none, none⟩, fun _ => false, none, fun _ => none, 0⟩ =
      (.failed, [.netStartLogin]) ∧
    LoginEffect.netStartLogin ∈
      (login ⟨some ⟨"tok", none, none⟩, fun _ => false, none,
        fun _ => none, 0⟩).2 := by
  refine ⟨rfl, rfl, ?_⟩
  show LoginEffect.netStartLogin ∈ [LoginEffect.netStartLogin]
  simp

/-- C7: a poll response `status = "authenticated"` carrying a token leads
to the credential being persisted and the login succeeding even when the
confirmatory SDK validation of that token fails; the failure surfaces
only as a warning effect and never aborts the flow — stated for any
attempt of the polling loop, and end-to-end for a run whose first poll
already authenticates. -/
theorem login_warns_but_persists :
    (∀ (env : LoginEnv) (r : CheckLoginResponse) (tok : String)
       (remaining attempt : Nat) (acc : List LoginEffect),
      env.pollResp attempt = some r → r.status = "authenticated" →
      r.token = some tok → env.validateToken tok = false →
      (pollLoop env (remaining + 1) attempt acc).1 = .authenticated ∧
      LoginEffect.saveAuth
        ⟨tok, r.expires_in.map (fun sec => env.now + sec), r.user⟩ ∈
        (pollLoop env (remaining + 1) attempt acc).2 ∧
      LoginEffect.warnTokenValidationFailed ∈
        (pollLoop env (remaining + 1) attempt acc).2) ∧
    (∀ (env : LoginEnv) (s : StartLoginResponse) (r : CheckLoginResponse)
       (tok : String),
      env.storedAuth = none → env.startResp = some s →
      0 < s.expires_in_seconds → env.pollResp 1 = some r →
      r.status = "authenticated" → r.token = some tok →
      env.validateToken tok = false →
      (login env).1 = .authenticated ∧
      LoginEffect.saveAuth
        ⟨tok, r.expires_in.map (fun sec => env.now + sec), r.user⟩ ∈
        (login env).2 ∧
      LoginEffect.warnTokenValidationFailed ∈ (login env).2) := by
  have key : ∀ (env : LoginEnv) (r : CheckLoginResponse) (tok : String)
      (remaining attempt : Nat) (acc : List LoginEffect),
      env.pollResp attempt = some r → r.status = "authenticated" →
      r.token = some tok → env.validateToken tok = false →
      (pollLoop env (remaining + 1) attempt acc).1 = .authenticated ∧
      LoginEffect.saveAuth
        ⟨tok, r.expires_in.map (fun sec => env.now + sec), r.user⟩ ∈
        (pollLoop env (remaining + 1) attempt acc).2 ∧
      LoginEffect.warnTokenValidationFailed ∈
        (pollLoop env (remaining + 1) attempt acc).2 := by
    intro env r tok remaining attempt acc hpoll hst htok hinv
    rw [pollLoop_authenticated env r tok remaining attempt acc hpoll hst htok]
    refine ⟨rfl, ?_, ?_⟩
    · simp [hinv]
    · simp [hinv]
  refine ⟨key, ?_⟩
  intro env s r tok hstored hstart hpos hpoll hst htok hinv
  obtain ⟨m, hm⟩ : ∃ m, maxAttempts s.expires_in_seconds = m + 1 := ⟨_, rfl⟩
  have h := login_to_pollLoop env s hstored hstart hpos
  rw [hm] at h
  have hk := key env r tok m 1 [.netStartLogin] hpoll hst htok hinv
  rw [h]
  exact hk

/-- Witness for C7: a concrete run whose third-party validation fails
still saves the credential and reports success, with the warning. -/
theorem login_warns_but_persists_witness :
    (login ⟨none, fun _ => false, some ⟨"dtok", "https://x/y", 10⟩,
      fun _ => some ⟨"authenticated", some "jwt", some 86400, none, none⟩,
      1000⟩).1 = .authenticated ∧
    LoginEffect.saveAuth ⟨"jwt", some ((1000 : Int) + 86400), none⟩ ∈
      (login ⟨none, fun _ => false, some ⟨"dtok", "https://x/y", 10⟩,
        fun _ => some ⟨"authenticated", some "jwt", some 86400, none, none⟩,
        1000⟩).2 ∧
    LoginEffect.warnTokenValidationFailed ∈
      (login ⟨none, fun _ => false, some ⟨"dtok", "https://x/y", 10⟩,
        fun _ => some ⟨"authenticated", some "jwt", some 86400, none, none⟩,
        1000⟩).2 :=
  login_warns_but_persists.2
    ⟨none, fun _ => false, some ⟨"dtok", "https://x/y", 10⟩,
      fun _ => some ⟨"authenticated", some "jwt", some 86400, none, none⟩,
      1000⟩
    ⟨"dtok", "https://x/y", 10⟩
    ⟨"authenticated", some "jwt", some 86400, none, none⟩ "jwt"
    rfl rfl (by norm_num) rfl rfl rfl rfl

/-- C8: a login run ending in a non-authenticated terminal outcome
(`expired`, `invalid`, `failed` or `timedOut`) writes no credential: no
`saveAuth` effect appears in its trace. -/
theorem login_no_persist_on_failure (env : LoginEnv)
    (h : (login env).1 = .expired ∨ (login env).1 = .invalid ∨
      (login env).1 = .failed ∨ (login env).1 = .timedOut) :
    ∀ a : CliAuth, LoginEffect.saveAuth a ∉ (login env).2 := by
  have hne : (login env).1 ≠ .authenticated := by
    rcases h with h | h | h | h <;> rw [h] <;> simp
  exact login_no_save_aux env hne

/-- Witness for C8: a concrete run ending `expired` persists nothing. -/
theorem login_no_persist_on_failure_witness :
    (login ⟨none, fun _ => false, some ⟨"d", "u", 10⟩,
      fun _ => some ⟨"expired", none, none, none, none⟩, 0⟩).1 =
      .expired ∧
    LoginEffect.saveAuth ⟨"t", none, none⟩ ∉
      (login ⟨none, fun _ => false, some ⟨"d", "u", 10⟩,
        fun _ => some ⟨"expired", none, none, none, none⟩, 0⟩).2 :=
  ⟨rfl,
   login_no_persist_on_failure
     ⟨none, fun _ => false, some ⟨"d", "u", 10⟩,
       fun _ => some ⟨"expired", none, none, none, none⟩, 0⟩
     (Or.inl rfl) ⟨"t", none, none⟩⟩


end Runbeam
